import Mathlib

/-!
Verification of the core rules engine of `der-des-ders` (a WW1 strategy game
written in Rust).  The source files `src/main.rs` and `src/state.rs` are
shallowly embedded below: `u8` values are modelled as `Nat` with explicit
overflow checks where overflow matters (a `none` result models a Rust debug
panic / process abort), `i8` values as `Int`, `HashMap<Nation, _>` as an
association list (insertion overwrites the existing binding), the seeded
`StdRng` as an explicit list of pre-drawn random words (each draw consumes
one word and maps it into the requested range), and the engine's interactive
loops as recursive functions over the list of player inputs.

The modules `engine.rs`, `side.rs`, `tech.rs` and `event.rs` of the
repository are not part of the sources; definitions taken from them are
modelled from the specification and are marked `Modelled from the spec:`
in their doc comment.  Everything else is translated from `state.rs` and
`main.rs`.
-/

namespace DerDesDers

/-- Modelled from the spec: `Side` from the missing `side.rs` — variant
{Allies, Empires}, with an opposite. -/
inductive Side where
| Allies : Side
| Empires : Side
deriving DecidableEq, Repr

/-- Modelled from the spec: `Side::other` from the missing `side.rs`. -/
def Side.other : Side → Side
| .Allies => .Empires
| .Empires => .Allies

/-- Modelled from the spec: `Nation` from the missing `side.rs`.  The spec
says an enumerated finite set of ≈16 nations partitioned by side; we include
the nations that appear in the sources (`main.rs` / `state.rs`). -/
inductive Nation where
| France : Nation
| Russia : Nation
| Egypt : Nation
| Serbia : Nation
| FrenchAfrica : Nation
| Italy : Nation
| Germany : Nation
| AustriaHungary : Nation
| OttomanEmpire : Nation
| Bulgaria : Nation
deriving DecidableEq, Repr

/-- Modelled from the spec: `NationState` from the missing `side.rs` —
variant {AtPeace, AtWar(breakdown: u8)}. -/
inductive NationState where
| AtPeace : NationState
| AtWar (breakdown : Nat) : NationState
deriving DecidableEq, Repr

/-- Modelled from the spec: the static per-nation attributes of `Country`
from the missing `side.rs`: owning side, base resource contribution,
victory-point value, maximum technology level. -/
structure Country where
  side : Side
  resources : Nat
  vp : Nat
  max_tech_level : Nat
deriving DecidableEq, Repr

/-- Modelled from the spec: the four technology categories from the missing
`tech.rs`. -/
inductive TechnologyType where
| Attack : TechnologyType
| Defense : TechnologyType
| Artillery : TechnologyType
| Air : TechnologyType
deriving DecidableEq, Repr

/-- Modelled from the spec: one catalogue entry from the missing `tech.rs`:
a record {name, category, level, earliest-year}. -/
structure Technology where
  name : String
  category : TechnologyType
  level : Nat
  date : Nat
deriving DecidableEq, Repr

/-- Modelled from the spec: the per-side record of four technology counters
from the missing `tech.rs`, each in [0,4]. -/
structure Technologies where
  attack : Nat
  defense : Nat
  artillery : Nat
  air : Nat
deriving DecidableEq, Repr

/-- Modelled from the spec: the `From<&Technologies>` conversion into a map
`TechnologyType → u8` used by `available_technologies_for` (state.rs:372). -/
def Technologies.level_of (t : Technologies) : TechnologyType → Nat
| .Attack => t.attack
| .Defense => t.defense
| .Artillery => t.artillery
| .Air => t.air

/-- Modelled from the spec: update one counter of `Technologies`. -/
def Technologies.bump (t : Technologies) : TechnologyType → Nat → Technologies
| .Attack, v => { t with attack := v }
| .Defense, v => { t with defense := v }
| .Artillery, v => { t with artillery := v }
| .Air, v => { t with air := v }

/-- Modelled from the spec: `ZERO_TECHNOLOGIES` from the missing `tech.rs`. -/
def ZERO_TECHNOLOGIES : Technologies := ⟨0, 0, 0, 0⟩

/-- `WarState` (state.rs:13): per-side resources, victory points and
technologies. -/
structure WarState where
  resources : Nat
  vp : Nat
  technologies : Technologies
deriving DecidableEq, Repr

/-- Modelled from the spec: `Event` from the missing `event.rs` — we keep
the fields `state.rs` reads: id, first year, optional expiry year. -/
structure Event where
  event_id : Nat
  year : Nat
  not_after : Option Nat
deriving DecidableEq, Repr

/-- `GameState` (state.rs:33).  `nations` is the association-list model of
the `HashMap<Nation, NationState>`; `countries` is the static country table
(never mutated by the embedded operations); `allies` / `empires` are the two
entries of `state_of_war`; `rolls` is the stream of pre-drawn random words
standing for the seeded `StdRng`. -/
structure GameState where
  current_turn : Nat
  initiative : Side
  winner : Option Side
  nations : List (Nation × NationState)
  countries : Nation → Country
  allies : WarState
  empires : WarState
  events_pool : List Event
  rolls : List Nat

/-- `state_of_war.get(&side).unwrap()` — both sides are always present in
the map, so the lookup is total. -/
def GameState.war (g : GameState) : Side → WarState
| .Allies => g.allies
| .Empires => g.empires

/-- Overwrite one side's `WarState` (the `get_mut` update pattern). -/
def GameState.set_war (g : GameState) : Side → WarState → GameState
| .Allies, w => { g with allies := w }
| .Empires, w => { g with empires := w }

/-- `resources_for` (state.rs:252). -/
def resources_for (g : GameState) (side : Side) : Nat :=
  (g.war side).resources

/-- `HashMap::insert` on the association-list model: overwrite the first
binding of the key, or append a new binding. -/
def insert_assoc (l : List (Nation × NationState)) (k : Nation) (v : NationState) :
    List (Nation × NationState) :=
  match l with
  | [] => [(k, v)]
  | (k0, v0) :: rest =>
    if k0 = k then (k, v) :: rest else (k0, v0) :: insert_assoc rest k v

/-- Pop one raw random word from the stream (an exhausted stream yields 0;
the real `StdRng` never exhausts, and every theorem that depends on a drawn
value fixes the stream explicitly). -/
def GameState.next_rand (g : GameState) : Nat × GameState :=
  (g.rolls.headD 0, { g with rolls := g.rolls.tail })

/-- `roll` (state.rs:256): `rng.gen_range(1..=6)` — one die roll in [1,6]. -/
def GameState.roll (g : GameState) : Nat × GameState :=
  (1 + g.next_rand.1 % 6, g.next_rand.2)

/-- `increase_pr` (state.rs:237): `resources += pr`, then cap at 20.  The
`u8` addition aborts (debug overflow) when the sum exceeds 255, which we
model as `none`. -/
def increase_pr (g : GameState) (side : Side) (pr : Nat) : Option GameState :=
  let st := g.war side
  if st.resources + pr ≤ 255 then
    some (g.set_war side
      { st with resources :=
          if st.resources + pr > 20 then 20 else st.resources + pr })
  else none

/-- `decrease_pr` (state.rs:246): `resources -= pr` with NO saturation —
the `u8` subtraction aborts (debug underflow) when `pr` exceeds the current
resources, which we model as `none`. -/
def decrease_pr (g : GameState) (side : Side) (pr : Nat) : Option GameState :=
  let st := g.war side
  if pr ≤ st.resources then
    some (g.set_war side { st with resources := st.resources - pr })
  else none

/-- Modelled from the spec: `GameEngine::reduce_pr` from the missing
`engine.rs`.  Per the spec (§9 design note and scenario 1) it saturates at
zero: "reduce_pr(Allies, 3) from 0 ⇒ resources = 0 (saturating)"; truncated
`Nat` subtraction is exactly that saturation. -/
def reduce_pr (g : GameState) (side : Side) (pr : Nat) : GameState :=
  let st := g.war side
  g.set_war side { st with resources := st.resources - pr }

/-- `current_year` (state.rs:260).  The Rust `match` on `current_turn`
panics on any turn outside [1,14]; `none` models that abort. -/
def current_year (turn : Nat) : Option Nat :=
  if turn = 1 then some 1914
  else if 2 ≤ turn ∧ turn ≤ 4 then some 1915
  else if 5 ≤ turn ∧ turn ≤ 7 then some 1916
  else if 8 ≤ turn ∧ turn ≤ 10 then some 1917
  else if 11 ≤ turn ∧ turn ≤ 13 then some 1918
  else if turn = 14 then some 1919
  else none

/-- `HitsResult` (state.rs:79). -/
inductive HitsResult where
| Surrenders (nation : Nation) : HitsResult
| Winner (side : Side) : HitsResult
| Hits (nation : Nation) (hits : Nat) : HitsResult
| NationNotAtWar (nation : Nation) : HitsResult
| NoResult : HitsResult
deriving DecidableEq, Repr

/-- `OffensiveOutcome` (state.rs:58). -/
inductive OffensiveOutcome where
| NotEnoughResources (pr : Nat) (resources : Nat) : OffensiveOutcome
| OperationalLevelTooLow (level : Nat) (required : Nat) : OffensiveOutcome
| Hits (result : HitsResult) : OffensiveOutcome
deriving DecidableEq, Repr

/-- `TechnologyImprovement` (state.rs:88). -/
inductive TechnologyImprovement where
| ImprovedTechnology (tech : TechnologyType) (pr : Nat) : TechnologyImprovement
| FailedTechnology (tech : TechnologyType) (pr : Nat) : TechnologyImprovement
| TechnologyNotAvailable (name : String) (not_before : Nat) (current : Nat) : TechnologyImprovement
| NoMoreTechnologyImprovement (tech : TechnologyType) (level : Nat) : TechnologyImprovement
deriving DecidableEq, Repr

/-- `Offensive` (state.rs:50).  The source fields `from` and `to` are
reserved words in Lean and are rendered `frm` / `tgt`. -/
structure Offensive where
  initiative : Side
  frm : Nation
  tgt : Nation
  pr : Nat
deriving DecidableEq, Repr

/-- Modelled from the spec: the `Input` variants of the player contract
(§4.10) from the missing `io.rs`.  `Offensive`'s first nation is the
attacker (`from` in the source). -/
inductive Input where
| Number (n : Nat) : Input
| Select (tech : TechnologyType) (n : Nat) : Input
| Offensive (frm : Nation) (tgt : Nation) (pr : Nat) : Input
| Reinforce (nation : Nation) (pr : Nat) : Input
| ApplyHit (nation : Nation) : Input
| Pass : Input
deriving DecidableEq, Repr

/-- Modelled from the spec: the `Output` observations of the player
contract (§4.10) from the missing `io.rs`, restricted to the variants the
embedded engine fragments emit. -/
inductive Output where
| ImproveTechnologies (avail : List TechnologyType) : Output
| TechnologyResult (result : TechnologyImprovement) : Output
| WrongInput (received : Input) : Output
| LaunchOffensive (avail : List Nation) : Output
| CountryAlreadyAttacked (nation : Nation) : Output
| AttackingNonAdjacentCountry (frm : Nation) (tgt : Nation) : Output
| OffensiveResult (frm : Nation) (tgt : Nation) (result : OffensiveOutcome) : Output
| UBootResult (loss : Nat) : Output
| SelectNationForHit : Output
deriving DecidableEq, Repr

/-- `StateChange` (state.rs:137).  `pr` is the `i8` delta, modelled as an
`Int` (well-formed values lie in [-128,127]). -/
inductive StateChange where
| NoChange : StateChange
| ChangeResources (side : Side) (pr : Int) : StateChange
| MoreChanges (changes : List StateChange) : StateChange

mutual

/-- `StateChange::allies_loss` (state.rs:145): a negative resource delta
against Allies counts as `-pr as u8`; `MoreChanges` folds the losses.
(For the unrepresentable corner `pr = -128` the `u8` cast of the panicking
Rust negation is approximated by `Int.toNat`; no table loss reaches it.) -/
def StateChange.allies_loss : StateChange → Nat
| .NoChange => 0
| .ChangeResources side pr => if pr < 0 ∧ side = .Allies then (-pr).toNat else 0
| .MoreChanges changes => allies_loss_list changes

/-- The fold inside `StateChange::allies_loss` over the nested list. -/
def allies_loss_list : List StateChange → Nat
| [] => 0
| c :: cs => c.allies_loss + allies_loss_list cs

end

mutual

/-- `apply_change` (state.rs:458): `NoChange` does nothing; a non-negative
delta goes through `increase_pr`, a negative one through `decrease_pr` with
`-pr as u8` (the negation of `-128_i8` aborts); `MoreChanges` applies the
changes in order.  `none` models an abort anywhere in the chain. -/
def apply_change (g : GameState) : StateChange → Option GameState
| .NoChange => some g
| .ChangeResources side pr =>
  if 0 ≤ pr then increase_pr g side pr.toNat
  else if pr = -128 then none
  else decrease_pr g side (-pr).toNat
| .MoreChanges changes => apply_change_list g changes

/-- The `for_each` inside `apply_change` over the nested list. -/
def apply_change_list (g : GameState) : List StateChange → Option GameState
| [] => some g
| c :: cs =>
  match apply_change g c with
  | none => none
  | some g1 => apply_change_list g1 cs

end

/-- `surrenders` (state.rs:307): credit the surrendered nation's vp to the
opposing side, set the nation `AtPeace`, then roll; a roll strictly below
the (updated) vp total makes that side the winner. -/
def surrenders (g : GameState) (tgt : Nation) : HitsResult × GameState :=
  let side := (g.countries tgt).side.other
  let st := g.war side
  let g1 := g.set_war side { st with vp := st.vp + (g.countries tgt).vp }
  let g2 := { g1 with nations := insert_assoc g1.nations tgt .AtPeace }
  let die := g2.roll.1
  let g3 := g2.roll.2
  if die < (g2.war side).vp then
    (.Winner side, { g3 with winner := some side })
  else
    (.Surrenders tgt, g3)

/-- Modelled from the spec: `GameEngine::apply_hits` from the missing
`engine.rs`, following §4.6: AtPeace → `NationNotAtWar`; zero hits →
`NoResult`; otherwise breakdown decreases by `hits` saturating at 0, and a
breakdown reaching 0 triggers `surrenders` (state.rs:307); otherwise the
hit count is reported.  (Confirmed by the `game_state_tests` in state.rs.) -/
def apply_hits_engine (g : GameState) (nation : Nation) (hits : Nat) :
    HitsResult × GameState :=
  match g.nations.lookup nation with
  | some (.AtWar b) =>
    if hits = 0 then (.NoResult, g)
    else if b ≤ hits then
      surrenders { g with nations := insert_assoc g.nations nation (.AtWar 0) } nation
    else
      (.Hits nation hits, { g with nations := insert_assoc g.nations nation (.AtWar (b - hits)) })
  | _ => (.NationNotAtWar nation, g)

/-- The closure folded by `tally_resources` (state.rs:220), hoisted to a
named function: an at-war nation of the requested side adds its static base
resources to the accumulator, except Russia which adds
`operational_level(breakdown) * 2`; everything else leaves it unchanged. -/
def tally_step (opL : Nat → Nat) (cs : Nation → Country) (pr_for_side : Side)
    (acc : Nat) (p : Nation × NationState) : Nat :=
  match p.2 with
  | .AtWar breakdown =>
    let c := cs p.1
    if c.side = pr_for_side then
      acc + (if p.1 = Nation.Russia then opL breakdown * 2 else c.resources)
    else acc
  | _ => acc

/-- `tally_resources` (state.rs:217): fold over the nations map.  The
`operational_level` step function lives in the missing `side.rs`, so it is
a parameter here. -/
def tally_resources (opL : Nat → Nat) (g : GameState) (pr_for_side : Side) : Nat :=
  g.nations.foldl (tally_step opL g.countries pr_for_side) 0

/-- The specification's description of `tally(side)` (§4.3 step 3): the sum,
over the nations map, of per-nation contributions, where a nation AtWar and
belonging to `side` contributes its static base (Russia:
`operational_level(breakdown) × 2`) and every other nation contributes 0.
Stated from the spec's words, to be compared with `tally_resources`. -/
def tally_contrib (opL : Nat → Nat) (cs : Nation → Country) (side : Side)
    (p : Nation × NationState) : Nat :=
  match p.2 with
  | .AtWar breakdown =>
    if (cs p.1).side = side then
      (if p.1 = Nation.Russia then opL breakdown * 2 else (cs p.1).resources)
    else 0
  | _ => 0

/-- The specification's `tally(side)` (§4.3 step 3) as a plain sum of the
per-nation contributions. -/
def tally_spec (opL : Nat → Nat) (g : GameState) (side : Side) : Nat :=
  (g.nations.map (tally_contrib opL g.countries side)).sum

/-- One iteration of the `for _ in 0..3` loop of `draw_events`
(state.rs:319), recursing on the remaining number of draws: stop early on
an empty pool, otherwise remove the event at a random index and keep it. -/
def draw_loop : Nat → GameState → List Event × GameState
| 0, g => ([], g)
| Nat.succ k, g =>
  if h : g.events_pool = [] then ([], g)
  else
    let idx : Fin g.events_pool.length :=
      ⟨g.next_rand.1 % g.events_pool.length, Nat.mod_lt _ (List.length_pos.mpr h)⟩
    let rest := draw_loop k
      { g.next_rand.2 with events_pool := g.events_pool.eraseIdx idx }
    (g.events_pool.get idx :: rest.1, rest.2)

/-- `draw_events` (state.rs:319): up to three events sampled without
replacement from the pool. -/
def draw_events (g : GameState) : List Event × GameState :=
  draw_loop 3 g

/-- `available_technologies_for` (state.rs:368): flatten the 4×4 catalogue,
keep the present entries whose date is at most the current year and whose
level is exactly one above the corresponding counter of the **Empires**
war-state (the source hard-codes `Side::Empires` at state.rs:374).
`current_year` panics outside turns 1..14, hence the `Option`. -/
def available_technologies_for (g : GameState)
    (technologies : List (List (Option Technology))) : Option (List Technology) :=
  match current_year g.current_turn with
  | none => none
  | some y =>
    let tech_map := (g.war .Empires).technologies
    some ((technologies.flatten.filterMap id).filter
      (fun tech => tech.date ≤ y ∧ tech.level = tech_map.level_of tech.category + 1))

/-- Modelled from the spec: adjacency between nations (missing `side.rs`);
a symmetric, irreflexive relation.  The listed pairs are the ones exercised
by the sources. -/
def ADJACENCY : List (Nation × Nation) :=
  [(.France, .Germany), (.Germany, .Russia), (.Russia, .AustriaHungary),
   (.Russia, .OttomanEmpire), (.Serbia, .AustriaHungary),
   (.Italy, .AustriaHungary), (.Egypt, .OttomanEmpire),
   (.Bulgaria, .Serbia)]

/-- Modelled from the spec: `Nation::adjacent_to` (missing `side.rs`). -/
def adjacent_to (a b : Nation) : Bool :=
  ADJACENCY.contains (a, b) || ADJACENCY.contains (b, a)

/-- Modelled from the spec: the static `COUNTRIES` table (missing
`side.rs`).  Sides and the values observable through the sources' tests
(France vp 6, Serbia max tech 2, Ottoman max tech 2, Italy resources 2,
Bulgaria resources 1, initial side tallies 14 / 9) are exact; the remaining
numbers are placeholders that no theorem depends on. -/
def COUNTRIES : Nation → Country
| .France => ⟨.Allies, 6, 6, 3⟩
| .Russia => ⟨.Allies, 0, 4, 3⟩
| .Egypt => ⟨.Allies, 1, 1, 1⟩
| .Serbia => ⟨.Allies, 1, 1, 2⟩
| .FrenchAfrica => ⟨.Allies, 0, 1, 1⟩
| .Italy => ⟨.Allies, 2, 2, 2⟩
| .Germany => ⟨.Empires, 5, 6, 3⟩
| .AustriaHungary => ⟨.Empires, 3, 3, 3⟩
| .OttomanEmpire => ⟨.Empires, 1, 2, 2⟩
| .Bulgaria => ⟨.Empires, 1, 1, 1⟩

/-- Modelled from the spec: the tiered technology catalogue (missing
`tech.rs`), §3: per category, for each level 1–4 an optional record
{name, earliest-year}.  The level-1 entries and "Trench warfare" are the
ones witnessed by the sources' tests ("Combat Gas" attack level 1 year
1915, "Heavy artillery" artillery level 1 year 1915, "Reco" air level 1
year 1915, defense level 1 available in 1914); unnamed higher levels are
left absent, which no theorem depends on. -/
def ALLIES_TECHNOLOGIES : List (List (Option Technology)) :=
  [[some ⟨"Combat Gas", .Attack, 1, 1915⟩, none, none, none],
   [some ⟨"Machine guns", .Defense, 1, 1914⟩, some ⟨"Trench warfare", .Defense, 2, 1915⟩, none, none],
   [some ⟨"Heavy artillery", .Artillery, 1, 1915⟩, none, none, none],
   [some ⟨"Reco", .Air, 1, 1915⟩, none, none, none]]

/-- Modelled from the spec: the Empires-side catalogue (missing `tech.rs`);
the sources' tests list the same names for both sides. -/
def EMPIRE_TECHNOLOGIES : List (List (Option Technology)) :=
  ALLIES_TECHNOLOGIES

/-- `available_technologies` (state.rs:361): dispatch on the side-specific
catalogue constant. -/
def available_technologies (g : GameState) (side : Side) : Option (List Technology) :=
  match side with
  | .Allies => available_technologies_for g ALLIES_TECHNOLOGIES
  | .Empires => available_technologies_for g EMPIRE_TECHNOLOGIES

/-- Modelled from the spec: the per-side catalogue dispatch used by
`try_improve_technology` (missing `engine.rs`). -/
def catalogue : Side → List (List (Option Technology))
| .Allies => ALLIES_TECHNOLOGIES
| .Empires => EMPIRE_TECHNOLOGIES

/-- Modelled from the spec: look up the technology of a given category and
level in a catalogue (missing `engine.rs` / `tech.rs`). -/
def next_tech (cat : List (List (Option Technology))) (c : TechnologyType)
    (lvl : Nat) : Option Technology :=
  (cat.flatten.filterMap id).find? (fun t => t.category == c && t.level == lvl)

/-- Modelled from the spec: `GameEngine::try_improve_technology` from the
missing `engine.rs`, following §4.5: with the side's current counter at
`level`, look up the level+1 entry of the side's catalogue; absent entry →
`NoMoreTechnologyImprovement(category, level)`; an entry whose
earliest-year exceeds the current year → `TechnologyNotAvailable(name,
earliest-year, current_year)` with no state change; otherwise roll one die,
spend `n` (saturating), and succeed iff `die + (n − 1) ≥ level+1 + 3`.
`current_year` panics outside turns 1..14, hence the `Option`. -/
def try_improve_technology (g : GameState) (side : Side) (c : TechnologyType)
    (n : Nat) : Option (TechnologyImprovement × GameState) :=
  match current_year g.current_turn with
  | none => none
  | some y =>
    let st := g.war side
    let level := st.technologies.level_of c
    match next_tech (catalogue side) c (level + 1) with
    | none => some (.NoMoreTechnologyImprovement c level, g)
    | some t =>
      if y < t.date then some (.TechnologyNotAvailable t.name t.date y, g)
      else
        let die := g.roll.1
        let g2 := reduce_pr g.roll.2 side n
        if t.level + 3 ≤ die + (n - 1) then
          let st2 := g2.war side
          some (.ImprovedTechnology c n,
            g2.set_war side { st2 with technologies := st2.technologies.bump c t.level })
        else
          some (.FailedTechnology c n, g2)

/-- The `while !available.is_empty()` loop of `improve_technologies`
(main.rs:211), recursing on the list of player inputs: each iteration
prompts `ImproveTechnologies(available)`; a `Select` of an unavailable
category or with `n == 0` is silently skipped; otherwise
`try_improve_technology` runs, its result is reported, and the chosen
category is removed from `available` by `retain`; `Pass` ends the phase;
any other input is answered `WrongInput`.  `none` models an abort or an
exhausted input list inside the loop. -/
def improve_loop (side : Side) :
    List Input → List TechnologyType → GameState →
    Option (GameState × List TechnologyType × List Output)
| _, [], g => some (g, [], [])
| [], _ :: _, _ => none
| input :: rest, avail@(_ :: _), g =>
  match input with
  | .Select tech n =>
    if avail.contains tech = false ∨ n = 0 then
      match improve_loop side rest avail g with
      | none => none
      | some (g2, a2, outs) => some (g2, a2, .ImproveTechnologies avail :: outs)
    else
      match try_improve_technology g side tech n with
      | none => none
      | some (result, g1) =>
        match improve_loop side rest (avail.filter (fun t => t ≠ tech)) g1 with
        | none => none
        | some (g2, a2, outs) =>
          some (g2, a2,
            .ImproveTechnologies avail :: .TechnologyResult result :: outs)
  | .Pass => some (g, avail, [.ImproveTechnologies avail])
  | other =>
    match improve_loop side rest avail g with
    | none => none
    | some (g2, a2, outs) =>
      some (g2, a2, .ImproveTechnologies avail :: .WrongInput other :: outs)

/-- Roll `n` dice in sequence (the per-offensive dice of §4.6). -/
def roll_n : Nat → GameState → List Nat × GameState
| 0, g => ([], g)
| Nat.succ k, g =>
  let rest := roll_n k g.roll.2
  (g.roll.1 :: rest.1, rest.2)

/-- Modelled from the spec: `GameEngine::resolve_offensive` from the
missing `engine.rs`, following §4.6: reject `pr` above the side's
resources, then `pr` above the attacker's operational level; otherwise
deduct `pr`, roll `pr + min(artillery, max_tech(from))` dice against the
threshold `6 − min(attack, max_tech(from)) + min(defense, max_tech(to))`,
and feed the hit count to `apply_hits`.  The `operational_level` step
function lives in the missing `side.rs` and is a parameter. -/
def resolve_offensive (opL : Nat → Nat) (g : GameState) (o : Offensive) :
    OffensiveOutcome × GameState :=
  let res := resources_for g o.initiative
  if res < o.pr then (.NotEnoughResources o.pr res, g)
  else
    let breakdown := match g.nations.lookup o.frm with
      | some (.AtWar b) => b
      | _ => 0
    let ol := opL breakdown
    if ol < o.pr then (.OperationalLevelTooLow ol o.pr, g)
    else
      let g1 := reduce_pr g o.initiative o.pr
      let maxFrom := (g.countries o.frm).max_tech_level
      let maxTo := (g.countries o.tgt).max_tech_level
      let atk := (g.war o.initiative).technologies
      let dfn := (g.war o.initiative.other).technologies
      let dice := o.pr + min atk.artillery maxFrom
      let thr := 6 + min dfn.defense maxTo - min atk.attack maxFrom
      let ds := (roll_n dice g1).1
      let g2 := (roll_n dice g1).2
      let hits := (ds.filter (fun d => thr ≤ d)).length
      (.Hits (apply_hits_engine g2 o.tgt hits).1, (apply_hits_engine g2 o.tgt hits).2)

/-- The `while !nations.is_empty()` loop of `launch_offensives`
(main.rs:241), recursing on the list of player inputs: each iteration
prompts `LaunchOffensive(nations)`; an attacker outside the remaining set
is answered `CountryAlreadyAttacked`, a non-adjacent target
`AttackingNonAdjacentCountry` (both without touching the state); a valid
offensive is resolved and the attacker is retained out of the set exactly
when the outcome is `Hits(_)`; `Pass` returns; other inputs are ignored.
`none` models an exhausted input list inside the loop. -/
def offensives_loop (initiative : Side) (opL : Nat → Nat) :
    List Input → List Nation → GameState →
    Option (GameState × List Nation × List Output)
| _, [], g => some (g, [], [])
| [], _ :: _, _ => none
| input :: rest, nations@(_ :: _), g =>
  match input with
  | .Offensive frm tgt pr =>
    if nations.contains frm = false then
      match offensives_loop initiative opL rest nations g with
      | none => none
      | some (g2, n2, outs) =>
        some (g2, n2, .LaunchOffensive nations :: .CountryAlreadyAttacked frm :: outs)
    else if adjacent_to frm tgt = false then
      match offensives_loop initiative opL rest nations g with
      | none => none
      | some (g2, n2, outs) =>
        some (g2, n2,
          .LaunchOffensive nations :: .AttackingNonAdjacentCountry frm tgt :: outs)
    else
      let r := resolve_offensive opL g ⟨initiative, frm, tgt, pr⟩
      let nations2 := match r.1 with
        | .Hits _ => nations.filter (fun nat => nat ≠ frm)
        | _ => nations
      match offensives_loop initiative opL rest nations2 r.2 with
      | none => none
      | some (g2, n2, outs) =>
        some (g2, n2,
          .LaunchOffensive nations :: .OffensiveResult frm tgt r.1 :: outs)
  | .Pass => some (g, nations, [.LaunchOffensive nations])
  | _ =>
    match offensives_loop initiative opL rest nations g with
    | none => none
    | some (g2, n2, outs) => some (g2, n2, .LaunchOffensive nations :: outs)

/-- The `while hits > 0` loop of `apply_hits` (main.rs:316), recursing on
the list of player inputs: each iteration prompts `SelectNationForHit`; an
`ApplyHit(nation)` input delivers one hit through the engine's
`apply_hits(nation, 1)` and decrements the counter; any other input is
consumed without effect.  `none` models an exhausted input list while hits
remain (the real loop would block forever). -/
def hits_loop : Nat → List Input → GameState → Option (GameState × List Output)
| 0, _, g => some (g, [])
| Nat.succ _, [], _ => none
| Nat.succ h, input :: rest, g =>
  match input with
  | .ApplyHit nation =>
    let g1 := (apply_hits_engine g nation 1).2
    match hits_loop h rest g1 with
    | none => none
    | some (g2, outs) => some (g2, .SelectNationForHit :: outs)
  | _ =>
    match hits_loop (Nat.succ h) rest g with
    | none => none
    | some (g2, outs) => some (g2, .SelectNationForHit :: outs)

/-- `apply_hits` (main.rs:308): report the U-boot loss; when the loss
exceeds the Allies' current resources, run the hit-allocation loop for the
excess and return the positive `ChangeResources` compensation
`(loss − pr) as i8`; otherwise `NoChange`. -/
def apply_hits_phase (inputs : List Input) (g : GameState) (loss : Nat) :
    Option (GameState × StateChange × List Output) :=
  let pr := resources_for g Side.Allies
  if pr < loss then
    match hits_loop (loss - pr) inputs g with
    | none => none
    | some (g1, outs) =>
      some (g1, .ChangeResources .Allies (((loss - pr : Nat) : Int)),
        .UBootResult loss :: outs)
  else
    some (g, .NoChange, [.UBootResult loss])

/-- The tail of `uboot` (main.rs:290) after `uboot_losses` produced the
table change — the table itself lives in the missing `engine.rs`, so the
loss `L` is a parameter here: compute `loss = change.allies_loss()`, run
the hit-allocation phase, then apply `MoreChanges([pr_lost, change])`. -/
def uboot_after_losses (L : Nat) (inputs : List Input) (g : GameState) :
    Option (GameState × List Output) :=
  let change := StateChange.ChangeResources .Allies (-(L : Int))
  let loss := change.allies_loss
  match apply_hits_phase inputs g loss with
  | none => none
  | some (g1, pr_lost, outs) =>
    match apply_change g1 (.MoreChanges [pr_lost, change]) with
    | none => none
    | some g2 => some (g2, outs)

/-- The fold of engine `apply_hits(nation, 1)` calls over a list of chosen
nations — the state effect of answering every `SelectNationForHit` prompt. -/
def hits_fold (ns : List Nation) (g : GameState) : GameState :=
  ns.foldl (fun s n => (apply_hits_engine s n 1).2) g

/-- Modelled from the spec: `INITIAL_NATION_STATE` (missing `side.rs`).
Breakdowns witnessed by the sources' tests: France 7, Russia 7, Germany 8,
AustriaHungary 5, OttomanEmpire 5, Serbia 3; Italy and Bulgaria start at
peace.  Egypt and FrenchAfrica are placeholders no theorem depends on. -/
def INITIAL_NATION_STATE : List (Nation × NationState) :=
  [(.France, .AtWar 7), (.Russia, .AtWar 7), (.Egypt, .AtWar 4),
   (.Serbia, .AtWar 3), (.FrenchAfrica, .AtWar 4), (.Italy, .AtPeace),
   (.Germany, .AtWar 8), (.AustriaHungary, .AtWar 5),
   (.OttomanEmpire, .AtWar 5), (.Bulgaria, .AtPeace)]

/-- A concrete game state in the image of `GameState::new` (state.rs:171),
used by the closed witnesses: turn 1, Empires initiative, no winner, the
initial nation table, zero war-states.  The event pool and random stream
are instantiated per witness. -/
def sample_state : GameState where
  current_turn := 1
  initiative := .Empires
  winner := none
  nations := INITIAL_NATION_STATE
  countries := COUNTRIES
  allies := ⟨0, 0, ZERO_TECHNOLOGIES⟩
  empires := ⟨0, 0, ZERO_TECHNOLOGIES⟩
  events_pool := []
  rolls := []

/-! Helper lemmas about the state accessors. -/

@[simp]
theorem war_set_war (g : GameState) (s t : Side) (w : WarState) :
    (g.set_war s w).war t = if t = s then w else g.war t := by
  cases s <;> cases t <;> simp [GameState.set_war, GameState.war]

@[simp]
theorem set_war_winner (g : GameState) (s : Side) (w : WarState) :
    (g.set_war s w).winner = g.winner := by
  cases s <;> rfl

@[simp]
theorem set_war_nations (g : GameState) (s : Side) (w : WarState) :
    (g.set_war s w).nations = g.nations := by
  cases s <;> rfl

@[simp]
theorem set_war_countries (g : GameState) (s : Side) (w : WarState) :
    (g.set_war s w).countries = g.countries := by
  cases s <;> rfl

@[simp]
theorem set_war_rolls (g : GameState) (s : Side) (w : WarState) :
    (g.set_war s w).rolls = g.rolls := by
  cases s <;> rfl

@[simp]
theorem set_war_current_turn (g : GameState) (s : Side) (w : WarState) :
    (g.set_war s w).current_turn = g.current_turn := by
  cases s <;> rfl

@[simp]
theorem set_war_events_pool (g : GameState) (s : Side) (w : WarState) :
    (g.set_war s w).events_pool = g.events_pool := by
  cases s <;> rfl

theorem resources_for_set_war (g : GameState) (s t : Side) (w : WarState) :
    resources_for (g.set_war s w) t = if t = s then w.resources else resources_for g t := by
  unfold resources_for
  rw [war_set_war]
  split <;> rfl

/-- C6: the turn-to-year mapping is fixed on turns 1..14 (1→1914, 2–4→1915,
5–7→1916, 8–10→1917, 11–13→1918, 14→1919), and any turn outside [1,14] —
including turn 15, which the state invariant permits — makes the year
lookup abort (`none`). -/
theorem claim_C6 :
    (current_year 1 = some 1914 ∧ current_year 2 = some 1915 ∧
     current_year 3 = some 1915 ∧ current_year 4 = some 1915 ∧
     current_year 5 = some 1916 ∧ current_year 6 = some 1916 ∧
     current_year 7 = some 1916 ∧ current_year 8 = some 1917 ∧
     current_year 9 = some 1917 ∧ current_year 10 = some 1917 ∧
     current_year 11 = some 1918 ∧ current_year 12 = some 1918 ∧
     current_year 13 = some 1918 ∧ current_year 14 = some 1919) ∧
    (∀ turn : Nat, turn = 0 ∨ 15 ≤ turn → current_year turn = none) := by
  constructor
  · decide
  · intro t ht
    unfold current_year
    rw [if_neg (by omega), if_neg (by omega), if_neg (by omega),
      if_neg (by omega), if_neg (by omega), if_neg (by omega)]

/-- Witness for C6: turn 15 in particular aborts the year lookup. -/
theorem claim_C6_witness : current_year 15 = none :=
  claim_C6.2 15 (Or.inr (by norm_num))

/-- C9: `apply_change(NoChange)` is the identity on the state, and applying
`MoreChanges([a, b])` is applying `a` then `b` (an abort anywhere
propagates, matching the Rust panic). -/
theorem claim_C9 :
    (∀ g : GameState, apply_change g .NoChange = some g) ∧
    (∀ (g : GameState) (a b : StateChange),
      apply_change g (.MoreChanges [a, b]) =
        (apply_change g a).bind (fun g1 => apply_change g1 b)) := by
  constructor
  · intro g; rfl
  · intro g a b
    simp only [apply_change, apply_change_list]
    cases apply_change g a with
    | none => rfl
    | some g1 =>
      simp only [Option.bind]
      cases apply_change g1 b with
      | none => rfl
      | some g2 => rfl

/-- Counterexample for C2: `decrease_pr(Allies, 3)` on a state whose Allies
resources are 0 underflows the `u8` subtraction and aborts (`none`) instead
of saturating to 0 as the claim states. -/
theorem claim_C2_counterexample :
    resources_for sample_state .Allies = 0 ∧
    decrease_pr sample_state .Allies 3 = none := by
  exact ⟨rfl, rfl⟩

/-- C2 (amended): `increase_pr` keeps resources ≤ 20; the engine-level
`reduce_pr` saturates at zero (its result is truncated subtraction, so
reducing by 3 from 0 leaves 0) and keeps resources ≤ 20; but
`GameState::decrease_pr` itself does not saturate — it only succeeds when
`pr` does not exceed the current resources (and then stays within bounds),
and aborts otherwise. -/
theorem claim_C2 :
    ∀ (g : GameState) (side : Side) (pr : Nat),
      (resources_for g side ≤ 20 →
        ∀ g1, increase_pr g side pr = some g1 → resources_for g1 side ≤ 20) ∧
      (resources_for (reduce_pr g side pr) side = resources_for g side - pr) ∧
      (resources_for g side ≤ 20 →
        resources_for (reduce_pr g side pr) side ≤ 20) ∧
      (∀ g1, decrease_pr g side pr = some g1 →
        resources_for g1 side = resources_for g side - pr) := by
  intro g side pr
  refine ⟨?_, ?_, ?_, ?_⟩
  · intro hle g1 h1
    simp only [increase_pr] at h1
    split at h1
    · rw [Option.some_inj] at h1
      subst h1
      rw [resources_for_set_war, if_pos rfl]
      dsimp only
      unfold resources_for at hle
      split <;> omega
    · exact absurd h1 (by simp)
  · simp only [reduce_pr]
    rw [resources_for_set_war, if_pos rfl]
    rfl
  · intro hle
    simp only [reduce_pr]
    rw [resources_for_set_war, if_pos rfl]
    unfold resources_for at hle
    dsimp only
    omega
  · intro g1 h1
    simp only [decrease_pr] at h1
    split at h1
    · rw [Option.some_inj] at h1
      subst h1
      rw [resources_for_set_war, if_pos rfl]
      rfl
    · exact absurd h1 (by simp)

/-- Witness for C2 (amended): on the initial-like state, raising Allies
resources by 25 caps within the bound, and the engine's saturating
reduction by 3 from 0 leaves 0 − 3 = 0. -/
theorem claim_C2_witness :
    resources_for { sample_state with allies := ⟨20, 0, ZERO_TECHNOLOGIES⟩ } .Allies ≤ 20 ∧
    resources_for (reduce_pr sample_state .Allies 3) .Allies = 0 - 3 :=
  ⟨(claim_C2 sample_state .Allies 25).1 (by decide)
      { sample_state with allies := ⟨20, 0, ZERO_TECHNOLOGIES⟩ } rfl,
   (claim_C2 sample_state .Allies 3).2.1⟩

/-- A left fold that adds one contribution per element computes the sum of
the contributions. -/
theorem foldl_add_contrib {α : Type} (f : α → Nat) (F : Nat → α → Nat)
    (hF : ∀ a x, F a x = a + f x) :
    ∀ (l : List α) (acc : Nat), l.foldl F acc = acc + (l.map f).sum := by
  intro l
  induction l with
  | nil => intro acc; simp
  | cons x xs ih =>
    intro acc
    simp only [List.foldl_cons, List.map_cons, List.sum_cons, hF, ih]
    omega

/-- Each tally fold step adds exactly the specification's per-nation
contribution. -/
theorem tally_step_eq (opL : Nat → Nat) (cs : Nation → Country) (side : Side) :
    ∀ (a : Nat) (p : Nation × NationState),
      tally_step opL cs side a p = a + tally_contrib opL cs side p := by
  intro a p
  rcases p with ⟨n, st⟩
  cases st with
  | AtPeace => simp [tally_step, tally_contrib]
  | AtWar b =>
    simp only [tally_step, tally_contrib]
    split
    · rfl
    · omega

/-- C7: the fold implementing `tally_resources` computes exactly the
specification's sum — over the nations map, an at-war nation of the
requested side contributes its static base resources (Russia:
`operational_level(breakdown) × 2`) and every other nation contributes
nothing — for every operational-level function, state and side. -/
theorem claim_C7 :
    ∀ (opL : Nat → Nat) (g : GameState) (side : Side),
      tally_resources opL g side = tally_spec opL g side := by
  intro opL g side
  unfold tally_resources tally_spec
  rw [foldl_add_contrib (tally_contrib opL g.countries side)
    (tally_step opL g.countries side) (tally_step_eq opL g.countries side) g.nations 0]
  omega

/-- C10: for any side-specific catalogue and any turn whose year lookup
succeeds, `available_technologies_for` keeps exactly the catalogue entries
whose date is at most the current year and whose level is one plus the
**Empires** side's counter for their category; consequently replacing the
Allies' technology counters never changes the result of
`available_technologies`, for either side. -/
theorem claim_C10 :
    ∀ (g : GameState) (y : Nat),
      current_year g.current_turn = some y →
      (∀ (cat : List (List (Option Technology))) (t : Technology),
          t ∈ (available_technologies_for g cat).getD [] ↔
            (t ∈ cat.flatten.filterMap id ∧ t.date ≤ y ∧
             t.level = (g.war .Empires).technologies.level_of t.category + 1)) ∧
      (∀ (w : Technologies) (side : Side),
          available_technologies
            (g.set_war .Allies { g.war .Allies with technologies := w }) side =
            available_technologies g side) := by
  intro g y hy
  constructor
  · intro cat t
    simp only [available_technologies_for, hy, Option.getD_some, List.mem_filter,
      decide_eq_true_eq]
  · intro w side
    cases side <;> rfl

/-- Witness for C10: on the initial state (turn 1, year 1914, zero
counters) the defense level-1 entry of the Allies catalogue is available,
and maxing the Allies counters changes nothing. -/
theorem claim_C10_witness :
    ((⟨"Machine guns", .Defense, 1, 1914⟩ : Technology) ∈
        (available_technologies_for sample_state ALLIES_TECHNOLOGIES).getD [] ↔
      ((⟨"Machine guns", .Defense, 1, 1914⟩ : Technology) ∈
          ALLIES_TECHNOLOGIES.flatten.filterMap id ∧ (1914 : Nat) ≤ 1914 ∧
        (1 : Nat) = (sample_state.war .Empires).technologies.level_of .Defense + 1)) ∧
    available_technologies
      (sample_state.set_war .Allies
        { sample_state.war .Allies with technologies := ⟨4, 4, 4, 4⟩ }) .Allies =
      available_technologies sample_state .Allies :=
  ⟨(claim_C10 sample_state 1914 rfl).1 ALLIES_TECHNOLOGIES
      ⟨"Machine guns", .Defense, 1, 1914⟩,
   (claim_C10 sample_state 1914 rfl).2 ⟨4, 4, 4, 4⟩ .Allies⟩

/-- In a duplicate-free list, the element at an index does not survive the
removal of that index. -/
theorem get_not_mem_eraseIdx {α : Type} :
    ∀ (l : List α) (i : Nat) (h : i < l.length),
      l.Nodup → l.get ⟨i, h⟩ ∉ l.eraseIdx i := by
  intro l
  induction l with
  | nil => intro i h; simp at h
  | cons x xs ih =>
    intro i h hnd
    rcases List.nodup_cons.mp hnd with ⟨hx, hxs⟩
    cases i with
    | zero => simpa using hx
    | succ j =>
      simp only [List.get_cons_succ, List.eraseIdx_cons_succ, List.mem_cons,
        not_or]
      constructor
      · intro heq
        exact hx (heq ▸ List.get_mem xs j _)
      · exact ih j _ hxs

/-- The draw loop removes and returns exactly `min k (pool size)` events,
all taken from (and removed out of) the pool without replacement,
preserving the pool's uniqueness. -/
theorem draw_loop_spec :
    ∀ (k : Nat) (g : GameState), g.events_pool.Nodup →
      (draw_loop k g).1.length = min k g.events_pool.length ∧
      (∀ e ∈ (draw_loop k g).1, e ∈ g.events_pool) ∧
      (draw_loop k g).2.events_pool.length =
        g.events_pool.length - (draw_loop k g).1.length ∧
      (draw_loop k g).2.events_pool.Nodup ∧
      (draw_loop k g).1.Nodup ∧
      (∀ e ∈ (draw_loop k g).2.events_pool, e ∈ g.events_pool) := by
  intro k
  induction k with
  | zero =>
    intro g hnd
    simp [draw_loop, hnd]
  | succ k ih =>
    intro g hnd
    by_cases h : g.events_pool = []
    · simp [draw_loop, h]
    · have hlen : 0 < g.events_pool.length := List.length_pos.mpr h
      have hsub : List.Sublist
          (g.events_pool.eraseIdx (g.next_rand.1 % g.events_pool.length))
          g.events_pool := List.eraseIdx_sublist _ _
      obtain ⟨ih1, ih2, ih3, ih4, ih5, ih6⟩ :=
        ih { g.next_rand.2 with
              events_pool :=
                g.events_pool.eraseIdx (g.next_rand.1 % g.events_pool.length) }
          (hsub.nodup hnd)
      have herase : (g.events_pool.eraseIdx
          (g.next_rand.1 % g.events_pool.length)).length =
          g.events_pool.length - 1 :=
        List.length_eraseIdx_of_lt (Nat.mod_lt _ hlen)
      simp only [draw_loop, dif_neg h]
      refine ⟨?_, ?_, ?_, ?_, ?_, ?_⟩
      · simp only [List.length_cons, ih1]
        rw [herase]
        omega
      · intro e he
        rcases List.mem_cons.mp he with rfl | he2
        · exact List.get_mem _ _ _
        · exact List.mem_of_mem_eraseIdx (ih2 e he2)
      · simp only [List.length_cons, ih3]
        rw [herase]
        omega
      · exact ih4
      · refine List.nodup_cons.mpr ⟨?_, ih5⟩
        intro hmem
        exact get_not_mem_eraseIdx g.events_pool _ _ hnd (ih2 _ hmem)
      · intro e he
        exact List.mem_of_mem_eraseIdx (ih6 e he)

/-- C8: `draw_events` removes and returns exactly `min(3, pool size)`
events: every returned event was in the pool, the pool shrinks by exactly
the number returned (each drawn event is removed before the next draw, so
the draws are without replacement and the drawn events are pairwise
distinct), the remaining pool is a subset of the original, and pool
uniqueness is preserved. -/
theorem claim_C8 :
    ∀ g : GameState, g.events_pool.Nodup →
      (draw_events g).1.length = min 3 g.events_pool.length ∧
      (∀ e ∈ (draw_events g).1, e ∈ g.events_pool) ∧
      (draw_events g).2.events_pool.length =
        g.events_pool.length - (draw_events g).1.length ∧
      (draw_events g).2.events_pool.Nodup ∧
      (draw_events g).1.Nodup ∧
      (∀ e ∈ (draw_events g).2.events_pool, e ∈ g.events_pool) := by
  intro g h
  exact draw_loop_spec 3 g h

/-- Witness for C8: a concrete four-event pool with stream [5, 0, 1] —
the hypotheses of `claim_C8` hold and its conclusions follow. -/
theorem claim_C8_witness :
    (draw_events { sample_state with
        events_pool := [⟨1, 1914, none⟩, ⟨2, 1914, none⟩, ⟨3, 1914, none⟩,
          ⟨4, 1914, some 1915⟩],
        rolls := [5, 0, 1] }).1.length =
      min 3 ([⟨1, 1914, none⟩, ⟨2, 1914, none⟩, ⟨3, 1914, none⟩,
          (⟨4, 1914, some 1915⟩ : Event)] : List Event).length ∧
    (∀ e ∈ (draw_events { sample_state with
        events_pool := [⟨1, 1914, none⟩, ⟨2, 1914, none⟩, ⟨3, 1914, none⟩,
          ⟨4, 1914, some 1915⟩],
        rolls := [5, 0, 1] }).1,
      e ∈ ([⟨1, 1914, none⟩, ⟨2, 1914, none⟩, ⟨3, 1914, none⟩,
          (⟨4, 1914, some 1915⟩ : Event)] : List Event)) ∧
    (draw_events { sample_state with
        events_pool := [⟨1, 1914, none⟩, ⟨2, 1914, none⟩, ⟨3, 1914, none⟩,
          ⟨4, 1914, some 1915⟩],
        rolls := [5, 0, 1] }).2.events_pool.length =
      ([⟨1, 1914, none⟩, ⟨2, 1914, none⟩, ⟨3, 1914, none⟩,
          (⟨4, 1914, some 1915⟩ : Event)] : List Event).length -
        (draw_events { sample_state with
          events_pool := [⟨1, 1914, none⟩, ⟨2, 1914, none⟩, ⟨3, 1914, none⟩,
            ⟨4, 1914, some 1915⟩],
          rolls := [5, 0, 1] }).1.length ∧
    (draw_events { sample_state with
        events_pool := [⟨1, 1914, none⟩, ⟨2, 1914, none⟩, ⟨3, 1914, none⟩,
          ⟨4, 1914, some 1915⟩],
        rolls := [5, 0, 1] }).2.events_pool.Nodup ∧
    (draw_events { sample_state with
        events_pool := [⟨1, 1914, none⟩, ⟨2, 1914, none⟩, ⟨3, 1914, none⟩,
          ⟨4, 1914, some 1915⟩],
        rolls := [5, 0, 1] }).1.Nodup ∧
    (∀ e ∈ (draw_events { sample_state with
        events_pool := [⟨1, 1914, none⟩, ⟨2, 1914, none⟩, ⟨3, 1914, none⟩,
          ⟨4, 1914, some 1915⟩],
        rolls := [5, 0, 1] }).2.events_pool,
      e ∈ ([⟨1, 1914, none⟩, ⟨2, 1914, none⟩, ⟨3, 1914, none⟩,
          (⟨4, 1914, some 1915⟩ : Event)] : List Event)) :=
  claim_C8 _ (by decide)

/-! More record-update helper lemmas. -/

@[simp]
theorem war_update_nations (g : GameState) (s : Side) (l : List (Nation × NationState)) :
    ({ g with nations := l }).war s = g.war s := by
  cases s <;> rfl

@[simp]
theorem war_update_rolls (g : GameState) (s : Side) (l : List Nat) :
    ({ g with rolls := l }).war s = g.war s := by
  cases s <;> rfl

@[simp]
theorem war_update_winner (g : GameState) (s : Side) (w : Option Side) :
    ({ g with winner := w }).war s = g.war s := by
  cases s <;> rfl

@[simp]
theorem war_update_events_pool (g : GameState) (s : Side) (l : List Event) :
    ({ g with events_pool := l }).war s = g.war s := by
  cases s <;> rfl

/-- Looking up the just-inserted key finds the just-inserted value. -/
theorem lookup_insert_assoc (l : List (Nation × NationState)) (k : Nation)
    (v : NationState) : (insert_assoc l k v).lookup k = some v := by
  induction l with
  | nil => simp [insert_assoc, List.lookup]
  | cons p rest ih =>
    rcases p with ⟨k0, v0⟩
    simp only [insert_assoc]
    split
    · simp [List.lookup]
    · rename_i hne
      have hbeq : (k == k0) = false := by
        rw [beq_eq_false_iff_ne]
        intro hkk
        exact hne hkk.symm
      simp [List.lookup, hbeq, ih]

/-- Counterexample for C1: on the initial state (turn 1, year 1914, Attack
level 0 whose next technology "Combat Gas" carries earliest-year 1915),
submitting `Select(Attack, 2)` makes the engine emit
`TechnologyNotAvailable("Combat Gas", 1915, 1914)` AND remove `Attack` from
the available set — the next prompt lists only [Defense, Artillery, Air],
so the category does NOT remain available as the claim states. -/
theorem claim_C1_counterexample :
    (improve_loop .Empires [.Select .Attack 2, .Pass]
        [.Attack, .Defense, .Artillery, .Air] sample_state).map
        (fun r => (r.2.1, r.2.2)) =
      some ([.Defense, .Artillery, .Air],
        [.ImproveTechnologies [.Attack, .Defense, .Artillery, .Air],
         .TechnologyResult (.TechnologyNotAvailable "Combat Gas" 1915 1914),
         .ImproveTechnologies [.Defense, .Artillery, .Air]]) ∧
    TechnologyType.Attack ∉ [TechnologyType.Defense, .Artillery, .Air] :=
  ⟨rfl, by decide⟩

/-- C1 (amended): when the side-to-play submits `Select(category, n)` with
`n > 0` for an available category whose next-level technology has
earliest-year strictly beyond the current year, the engine emits
`TechnologyNotAvailable(name, earliest-year, current_year)`, the state is
unchanged, and the category is REMOVED from the available set (the loop
continues on `available` with the category filtered out), so the same
category cannot be selected again in the same phase. -/
theorem claim_C1 :
    ∀ (side : Side) (cat : TechnologyType) (n : Nat) (rest : List Input)
      (avail : List TechnologyType) (g : GameState) (y : Nat) (t : Technology),
      avail.contains cat = true → n ≠ 0 →
      current_year g.current_turn = some y →
      next_tech (catalogue side) cat
        ((g.war side).technologies.level_of cat + 1) = some t →
      y < t.date →
      improve_loop side (.Select cat n :: rest) avail g =
        (improve_loop side rest (avail.filter (fun x => x ≠ cat)) g).map
          (fun r => (r.1, r.2.1,
            .ImproveTechnologies avail ::
              .TechnologyResult (.TechnologyNotAvailable t.name t.date y) ::
                r.2.2)) := by
  intro side cat n rest avail g y t hc hn hy hnt hd
  cases avail with
  | nil => simp [List.contains] at hc
  | cons a as =>
    have htry : try_improve_technology g side cat n =
        some (.TechnologyNotAvailable t.name t.date y, g) := by
      simp only [try_improve_technology, hy, hnt]
      rw [if_pos hd]
    simp only [improve_loop]
    rw [if_neg ?hcond, htry]
    case hcond =>
      rintro (h1 | h2)
      · rw [hc] at h1
        exact absurd h1 (by simp)
      · exact hn h2
    dsimp only
    cases improve_loop side rest ((a :: as).filter (fun x => x ≠ cat)) g with
    | none => rfl
    | some r => rfl

/-- Witness for C1 (amended): the concrete Empires `Select(Attack, 2)` on
turn 1 — Combat Gas is dated 1915 > 1914 — reduces to the continuation on
the available set with Attack removed. -/
theorem claim_C1_witness :
    improve_loop .Empires [.Select .Attack 2, .Pass]
        [.Attack, .Defense, .Artillery, .Air] sample_state =
      (improve_loop .Empires [.Pass]
          ([.Attack, .Defense, .Artillery, .Air].filter
            (fun x => x ≠ TechnologyType.Attack)) sample_state).map
        (fun r => (r.1, r.2.1,
          .ImproveTechnologies [.Attack, .Defense, .Artillery, .Air] ::
            .TechnologyResult (.TechnologyNotAvailable "Combat Gas" 1915 1914) ::
              r.2.2)) :=
  claim_C1 .Empires .Attack 2 [.Pass] [.Attack, .Defense, .Artillery, .Air]
    sample_state 1914 ⟨"Combat Gas", .Attack, 1, 1915⟩ rfl (by decide) rfl rfl
    (by decide)

/-- Component-level description of `surrenders` (state.rs:307): the nation
is set AtPeace, the opposing side's vp increases by the nation's country
vp (no side's resources change), one random word is consumed, and the
result and winner field follow the roll-vs-updated-vp comparison. -/
theorem surrenders_components :
    ∀ (g : GameState) (tgt : Nation) (r : Nat) (rest : List Nat),
      g.rolls = r :: rest →
      ((surrenders g tgt).2.nations = insert_assoc g.nations tgt .AtPeace) ∧
      (∀ s : Side, ((surrenders g tgt).2.war s).vp =
        if s = (g.countries tgt).side.other then
          (g.war s).vp + (g.countries tgt).vp
        else (g.war s).vp) ∧
      (∀ s : Side, ((surrenders g tgt).2.war s).resources = (g.war s).resources) ∧
      ((surrenders g tgt).2.rolls = rest) ∧
      ((surrenders g tgt).2.countries = g.countries) ∧
      ((surrenders g tgt).2.current_turn = g.current_turn) ∧
      (1 + r % 6 <
          (g.war ((g.countries tgt).side.other)).vp + (g.countries tgt).vp →
        (surrenders g tgt).1 = .Winner ((g.countries tgt).side.other) ∧
        (surrenders g tgt).2.winner = some ((g.countries tgt).side.other)) ∧
      (¬ (1 + r % 6 <
          (g.war ((g.countries tgt).side.other)).vp + (g.countries tgt).vp) →
        (surrenders g tgt).1 = .Surrenders tgt ∧
        (surrenders g tgt).2.winner = g.winner) := by
  intro g tgt r rest hr
  cases hcs : (g.countries tgt).side with
  | Allies =>
    simp only [surrenders, hcs, Side.other, GameState.set_war, GameState.war,
      GameState.roll, GameState.next_rand, hr]
    split
    · refine ⟨rfl, ?_, ?_, rfl, rfl, rfl, fun _ => ⟨rfl, rfl⟩, ?_⟩
      · intro s; cases s <;> simp [GameState.war]
      · intro s; cases s <;> rfl
      · rename_i hlt
        intro hno
        exact absurd hlt hno
    · refine ⟨rfl, ?_, ?_, rfl, rfl, rfl, ?_, fun _ => ⟨rfl, rfl⟩⟩
      · intro s; cases s <;> simp [GameState.war]
      · intro s; cases s <;> rfl
      · rename_i hge
        intro hyes
        exact absurd hyes hge
  | Empires =>
    simp only [surrenders, hcs, Side.other, GameState.set_war, GameState.war,
      GameState.roll, GameState.next_rand, hr]
    split
    · refine ⟨rfl, ?_, ?_, rfl, rfl, rfl, fun _ => ⟨rfl, rfl⟩, ?_⟩
      · intro s; cases s <;> simp [GameState.war]
      · intro s; cases s <;> rfl
      · rename_i hlt
        intro hno
        exact absurd hlt hno
    · refine ⟨rfl, ?_, ?_, rfl, rfl, rfl, ?_, fun _ => ⟨rfl, rfl⟩⟩
      · intro s; cases s <;> simp [GameState.war]
      · intro s; cases s <;> rfl
      · rename_i hge
        intro hyes
        exact absurd hyes hge

/-- C4: when hits bring an at-war nation's breakdown to 0 (a positive hit
count at least the breakdown), the nation surrenders: its state becomes
AtPeace, its country's vp is added to the opposing side's victory points,
and then one die is rolled; a roll strictly below the opposing side's
UPDATED vp total sets the winner and returns `Winner(side)`, otherwise
`Surrenders(nation)` is returned and the winner field is left untouched. -/
theorem claim_C4 :
    ∀ (g : GameState) (nation : Nation) (b hits r : Nat) (rest : List Nat),
      g.nations.lookup nation = some (.AtWar b) → 0 < hits → b ≤ hits →
      g.rolls = r :: rest →
      ((apply_hits_engine g nation hits).2.nations.lookup nation =
        some .AtPeace) ∧
      (((apply_hits_engine g nation hits).2.war
          ((g.countries nation).side.other)).vp =
        (g.war ((g.countries nation).side.other)).vp + (g.countries nation).vp) ∧
      (1 + r % 6 <
          (g.war ((g.countries nation).side.other)).vp + (g.countries nation).vp →
        (apply_hits_engine g nation hits).1 =
          .Winner ((g.countries nation).side.other) ∧
        (apply_hits_engine g nation hits).2.winner =
          some ((g.countries nation).side.other)) ∧
      (¬ (1 + r % 6 <
          (g.war ((g.countries nation).side.other)).vp + (g.countries nation).vp) →
        (apply_hits_engine g nation hits).1 = .Surrenders nation ∧
        (apply_hits_engine g nation hits).2.winner = g.winner) := by
  intro g nation b hits r rest hlk hpos hble hr
  have h0 : apply_hits_engine g nation hits =
      surrenders { g with nations := insert_assoc g.nations nation (.AtWar 0) }
        nation := by
    simp only [apply_hits_engine, hlk]
    rw [if_neg (by omega), if_pos hble]
  obtain ⟨c1, c2, _, _, _, _, c7, c8⟩ :=
    surrenders_components
      { g with nations := insert_assoc g.nations nation (.AtWar 0) }
      nation r rest hr
  rw [h0]
  refine ⟨?_, ?_, ?_, ?_⟩
  · rw [c1]
    exact lookup_insert_assoc _ _ _
  · rw [c2 ((g.countries nation).side.other), if_pos rfl]
    rw [show ({ g with nations := insert_assoc g.nations nation (.AtWar 0) }
        : GameState).war = g.war from by
      funext s; cases s <;> rfl]
  · intro hless
    exact c7 (by
      rw [show ({ g with nations := insert_assoc g.nations nation (.AtWar 0) }
          : GameState).war = g.war from by
        funext s; cases s <;> rfl]
      exact hless)
  · intro hnotless
    exact c8 (by
      rw [show ({ g with nations := insert_assoc g.nations nation (.AtWar 0) }
          : GameState).war = g.war from by
        funext s; cases s <;> rfl]
      exact hnotless)

/-- Witness for C4: France at war with breakdown 4 takes 4 hits with a
drawn word 5 (die 6): 6 is not strictly below the Empires' updated vp
total 6, so France surrenders, the Empires gain vp 6 and no winner is
set. -/
theorem claim_C4_witness :
    ((apply_hits_engine { sample_state with
        nations := [(.France, .AtWar 4)], rolls := [5] } .France 4).2.nations.lookup
        .France = some .AtPeace) ∧
    (((apply_hits_engine { sample_state with
        nations := [(.France, .AtWar 4)], rolls := [5] } .France 4).2.war
        .Empires).vp = 0 + 6) ∧
    ((6 : Nat) < 0 + 6 →
      (apply_hits_engine { sample_state with
          nations := [(.France, .AtWar 4)], rolls := [5] } .France 4).1 =
        .Winner .Empires ∧
      (apply_hits_engine { sample_state with
          nations := [(.France, .AtWar 4)], rolls := [5] } .France 4).2.winner =
        some .Empires) ∧
    (¬ ((6 : Nat) < 0 + 6) →
      (apply_hits_engine { sample_state with
          nations := [(.France, .AtWar 4)], rolls := [5] } .France 4).1 =
        .Surrenders .France ∧
      (apply_hits_engine { sample_state with
          nations := [(.France, .AtWar 4)], rolls := [5] } .France 4).2.winner =
        none) :=
  claim_C4 { sample_state with nations := [(.France, .AtWar 4)], rolls := [5] }
    .France 4 4 5 [] rfl (by decide) (by decide) rfl

/-- C5: during LaunchOffensives (a) an attacker outside the remaining set
is answered `CountryAlreadyAttacked(from)` and (b) an attacker not adjacent
to the target is answered `AttackingNonAdjacentCountry(from, to)`, in both
cases with the game state and the remaining attacker set passed on
unchanged; and (c) for a valid offensive the loop continues on the resolved
state with the attacker removed from the set if and only if the offensive
resolved to a `Hits(_)` outcome. -/
theorem claim_C5 :
    (∀ (initiative : Side) (opL : Nat → Nat) (frm tgt : Nation) (pr : Nat)
       (rest : List Input) (nations : List Nation) (g : GameState),
       nations ≠ [] → nations.contains frm = false →
       offensives_loop initiative opL (.Offensive frm tgt pr :: rest) nations g =
         (offensives_loop initiative opL rest nations g).map
           (fun r => (r.1, r.2.1,
             .LaunchOffensive nations :: .CountryAlreadyAttacked frm :: r.2.2))) ∧
    (∀ (initiative : Side) (opL : Nat → Nat) (frm tgt : Nation) (pr : Nat)
       (rest : List Input) (nations : List Nation) (g : GameState),
       nations.contains frm = true → adjacent_to frm tgt = false →
       offensives_loop initiative opL (.Offensive frm tgt pr :: rest) nations g =
         (offensives_loop initiative opL rest nations g).map
           (fun r => (r.1, r.2.1,
             .LaunchOffensive nations ::
               .AttackingNonAdjacentCountry frm tgt :: r.2.2))) ∧
    (∀ (initiative : Side) (opL : Nat → Nat) (frm tgt : Nation) (pr : Nat)
       (rest : List Input) (nations : List Nation) (g : GameState),
       nations.contains frm = true → adjacent_to frm tgt = true →
       (offensives_loop initiative opL (.Offensive frm tgt pr :: rest) nations g =
         (offensives_loop initiative opL rest
             (match (resolve_offensive opL g ⟨initiative, frm, tgt, pr⟩).1 with
              | .Hits _ => nations.filter (fun x => x ≠ frm)
              | _ => nations)
             (resolve_offensive opL g ⟨initiative, frm, tgt, pr⟩).2).map
           (fun r => (r.1, r.2.1,
             .LaunchOffensive nations ::
               .OffensiveResult frm tgt
                 (resolve_offensive opL g ⟨initiative, frm, tgt, pr⟩).1 ::
                 r.2.2))) ∧
       ((frm ∉ (match (resolve_offensive opL g ⟨initiative, frm, tgt, pr⟩).1 with
            | .Hits _ => nations.filter (fun x => x ≠ frm)
            | _ => nations)) ↔
         ∃ hr, (resolve_offensive opL g ⟨initiative, frm, tgt, pr⟩).1 =
           .Hits hr)) := by
  refine ⟨?_, ?_, ?_⟩
  · intro initiative opL frm tgt pr rest nations g hne hc
    cases nations with
    | nil => exact absurd rfl hne
    | cons a as =>
      simp only [offensives_loop]
      rw [if_pos hc]
      cases offensives_loop initiative opL rest (a :: as) g with
      | none => rfl
      | some r => rfl
  · intro initiative opL frm tgt pr rest nations g hc hadj
    cases nations with
    | nil => simp [List.contains] at hc
    | cons a as =>
      simp only [offensives_loop]
      rw [if_neg (by rw [hc]; exact (by decide)), if_pos hadj]
      cases offensives_loop initiative opL rest (a :: as) g with
      | none => rfl
      | some r => rfl
  · intro initiative opL frm tgt pr rest nations g hc hadj
    have hmem : frm ∈ nations := by
      have := List.elem_iff.mp hc
      exact this
    constructor
    · cases nations with
      | nil => simp [List.contains] at hc
      | cons a as =>
        simp only [offensives_loop]
        rw [if_neg (by rw [hc]; exact (by decide)),
          if_neg (by rw [hadj]; exact (by decide))]
        cases hres : (resolve_offensive opL g ⟨initiative, frm, tgt, pr⟩).1 with
        | Hits hr0 =>
          dsimp only
          cases offensives_loop initiative opL rest
              ((a :: as).filter (fun x => x ≠ frm))
              (resolve_offensive opL g ⟨initiative, frm, tgt, pr⟩).2 with
          | none => rfl
          | some r => rfl
        | NotEnoughResources x y =>
          dsimp only
          cases offensives_loop initiative opL rest (a :: as)
              (resolve_offensive opL g ⟨initiative, frm, tgt, pr⟩).2 with
          | none => rfl
          | some r => rfl
        | OperationalLevelTooLow x y =>
          dsimp only
          cases offensives_loop initiative opL rest (a :: as)
              (resolve_offensive opL g ⟨initiative, frm, tgt, pr⟩).2 with
          | none => rfl
          | some r => rfl
    · cases hres : (resolve_offensive opL g ⟨initiative, frm, tgt, pr⟩).1 with
      | Hits hr0 =>
        constructor
        · intro _
          exact ⟨hr0, rfl⟩
        · intro _
          simp [List.mem_filter]
      | NotEnoughResources x y =>
        constructor
        · intro hno
          exact absurd hmem hno
        · rintro ⟨hr1, h⟩
          cases h
      | OperationalLevelTooLow x y =>
        constructor
        · intro hno
          exact absurd hmem hno
        · rintro ⟨hr1, h⟩
          cases h

/-- Witness for C5: concrete instances of the three cases — Russia not in
the remaining set [France], France attacking non-adjacent AustriaHungary,
and a valid France→Germany offensive with 0 resources that resolves to
`NotEnoughResources` (not `Hits`), so France is kept in the set. -/
theorem claim_C5_witness :
    (offensives_loop .Allies (fun b => b / 2)
        [.Offensive .Russia .Germany 1, .Pass] [.France] sample_state =
      (offensives_loop .Allies (fun b => b / 2) [.Pass] [.France]
          sample_state).map
        (fun r => (r.1, r.2.1,
          .LaunchOffensive [.France] :: .CountryAlreadyAttacked .Russia ::
            r.2.2))) ∧
    (offensives_loop .Allies (fun b => b / 2)
        [.Offensive .France .AustriaHungary 1, .Pass] [.France] sample_state =
      (offensives_loop .Allies (fun b => b / 2) [.Pass] [.France]
          sample_state).map
        (fun r => (r.1, r.2.1,
          .LaunchOffensive [.France] ::
            .AttackingNonAdjacentCountry .France .AustriaHungary :: r.2.2))) ∧
    ((.France : Nation) ∉
        (match (resolve_offensive (fun b => b / 2) sample_state
            ⟨.Allies, .France, .Germany, 1⟩).1 with
         | .Hits _ => [Nation.France].filter (fun x => x ≠ Nation.France)
         | _ => [Nation.France]) ↔
      ∃ hr, (resolve_offensive (fun b => b / 2) sample_state
          ⟨.Allies, .France, .Germany, 1⟩).1 = .Hits hr) :=
  ⟨claim_C5.1 .Allies (fun b => b / 2) .Russia .Germany 1 [.Pass] [.France]
      sample_state (by decide) rfl,
   claim_C5.2.1 .Allies (fun b => b / 2) .France .AustriaHungary 1 [.Pass]
      [.France] sample_state rfl rfl,
   (claim_C5.2.2 .Allies (fun b => b / 2) .France .Germany 1 [.Pass] [.France]
      sample_state rfl rfl).2⟩

@[simp]
theorem set_war_set_war (g : GameState) (s : Side) (w1 w2 : WarState) :
    (g.set_war s w1).set_war s w2 = g.set_war s w2 := by
  cases s <;> rfl

/-- `surrenders` never touches any side's resources. -/
theorem surrenders_war_resources :
    ∀ (g : GameState) (tgt : Nation) (s : Side),
      ((surrenders g tgt).2.war s).resources = (g.war s).resources := by
  intro g tgt
  cases hcs : (g.countries tgt).side with
  | Allies =>
    simp only [surrenders, hcs, Side.other, GameState.set_war, GameState.war,
      GameState.roll, GameState.next_rand]
    cases g.rolls with
    | nil => intro s; cases s <;> (split_ifs <;> rfl)
    | cons r rest => intro s; cases s <;> (split_ifs <;> rfl)
  | Empires =>
    simp only [surrenders, hcs, Side.other, GameState.set_war, GameState.war,
      GameState.roll, GameState.next_rand]
    cases g.rolls with
    | nil => intro s; cases s <;> (split_ifs <;> rfl)
    | cons r rest => intro s; cases s <;> (split_ifs <;> rfl)

/-- The engine's `apply_hits` never touches any side's resources. -/
theorem apply_hits_engine_war_resources :
    ∀ (g : GameState) (n : Nation) (h : Nat) (s : Side),
      ((apply_hits_engine g n h).2.war s).resources = (g.war s).resources := by
  intro g n h s
  simp only [apply_hits_engine]
  cases hlk : g.nations.lookup n with
  | none => rfl
  | some st =>
    cases st with
    | AtPeace => rfl
    | AtWar b =>
      dsimp only
      split
      · rfl
      · split
        · rw [surrenders_war_resources]
          cases s <;> rfl
        · cases s <;> rfl

/-- Folding unit hits never touches any side's resources. -/
theorem hits_fold_war_resources :
    ∀ (ns : List Nation) (g : GameState) (s : Side),
      ((hits_fold ns g).war s).resources = (g.war s).resources := by
  intro ns
  induction ns with
  | nil => intro g s; rfl
  | cons n rest ih =>
    intro g s
    show ((hits_fold rest (apply_hits_engine g n 1).2).war s).resources = _
    rw [ih, apply_hits_engine_war_resources]

/-- Feeding the hit-allocation loop exactly as many `ApplyHit` answers as
hits delivers one engine hit per answered nation (in order) and emits one
`SelectNationForHit` prompt per hit. -/
theorem hits_loop_map_apply :
    ∀ (ns : List Nation) (g : GameState),
      hits_loop ns.length (ns.map .ApplyHit) g =
        some (hits_fold ns g, List.replicate ns.length .SelectNationForHit) := by
  intro ns
  induction ns with
  | nil => intro g; rfl
  | cons n rest ih =>
    intro g
    simp only [List.map_cons, List.length_cons, hits_loop, ih]
    rfl

/-- `allies_loss` of the U-boot table change `ChangeResources(Allies, -L)`
is `L`. -/
theorem allies_loss_neg_cast (L : Nat) :
    (StateChange.ChangeResources .Allies (-(L : Int))).allies_loss = L := by
  rcases Nat.eq_zero_or_pos L with h0 | hpos
  · subst h0
    rfl
  · have h1 : -(L : Int) < 0 := by omega
    simp [StateChange.allies_loss, h1]

/-- C3: in U-boot resolution with table loss `L` and Allies resources `R`:
if `L ≤ R` the Allies resources drop by exactly `L`, nothing else changes
and no hit prompt is issued; if `L > R` and the Allies answer the
`SelectNationForHit` prompt `L − R` times with `ApplyHit`, exactly `L − R`
prompts are issued, each answered nation receives exactly one hit through
the engine's `apply_hits(nation, 1)` (the fold `hits_fold`), and the
Allies resources end at exactly 0. -/
theorem claim_C3 :
    ∀ (L : Nat) (g : GameState) (ns : List Nation) (inputs : List Input),
      L ≤ 20 → resources_for g .Allies ≤ 20 →
      (L ≤ resources_for g .Allies →
        uboot_after_losses L inputs g =
          some (g.set_war .Allies
              { g.war .Allies with resources := resources_for g .Allies - L },
            [.UBootResult L])) ∧
      (resources_for g .Allies < L → ns.length = L - resources_for g .Allies →
        uboot_after_losses L (ns.map .ApplyHit) g =
          some ((hits_fold ns g).set_war .Allies
              { (hits_fold ns g).war .Allies with resources := 0 },
            .UBootResult L ::
              List.replicate (L - resources_for g .Allies)
                .SelectNationForHit)) := by
  intro L g ns inputs hL20 hR20
  constructor
  · intro hle
    simp only [uboot_after_losses]
    rw [allies_loss_neg_cast]
    simp only [apply_hits_phase]
    rw [if_neg (by omega)]
    dsimp only
    have happ : apply_change g (.MoreChanges [.NoChange,
        .ChangeResources .Allies (-(L : Int))]) =
        some (g.set_war .Allies
          { g.war .Allies with resources := resources_for g .Allies - L }) := by
      show apply_change_list g [.NoChange, .ChangeResources .Allies (-(L : Int))]
        = _
      show apply_change_list g [.ChangeResources .Allies (-(L : Int))] = _
      show (match apply_change g (.ChangeResources .Allies (-(L : Int))) with
        | none => none
        | some g1 => apply_change_list g1 []) = _
      rcases Nat.eq_zero_or_pos L with h0 | hpos
      · subst h0
        show (match increase_pr g .Allies ((0 : Int)).toNat with
          | none => none
          | some g1 => apply_change_list g1 []) = _
        simp only [increase_pr, Int.toNat_zero]
        unfold resources_for at hR20 ⊢
        rw [if_pos (by omega)]
        show some (g.set_war .Allies _) = _
        rw [if_neg (by omega)]
        rfl
      · have hneg : ¬ (0 : Int) ≤ -(L : Int) := by omega
        have h128 : ¬ (-(L : Int) = -128) := by omega
        simp only [apply_change, hneg, if_false, if_neg h128]
        rw [show ((-(-(L : Int))).toNat) = L by simp]
        simp only [decrease_pr]
        unfold resources_for at hle
        rw [if_pos hle]
        rfl
    rw [happ]
  · intro hgt hlen
    simp only [uboot_after_losses]
    rw [allies_loss_neg_cast]
    simp only [apply_hits_phase]
    rw [if_pos hgt]
    rw [← hlen, hits_loop_map_apply]
    dsimp only
    have hr1 : ((hits_fold ns g).war .Allies).resources =
        resources_for g .Allies := hits_fold_war_resources ns g .Allies
    have happ2 : apply_change (hits_fold ns g) (.MoreChanges
        [.ChangeResources .Allies ((ns.length : Nat) : Int),
         .ChangeResources .Allies (-(L : Int))]) =
        some ((hits_fold ns g).set_war .Allies
          { (hits_fold ns g).war .Allies with resources := 0 }) := by
      show apply_change_list (hits_fold ns g)
        [.ChangeResources .Allies ((ns.length : Nat) : Int),
         .ChangeResources .Allies (-(L : Int))] = _
      show (match apply_change (hits_fold ns g)
          (.ChangeResources .Allies ((ns.length : Nat) : Int)) with
        | none => none
        | some g1 => apply_change_list g1 [.ChangeResources .Allies (-(L : Int))]) = _
      have hstep1 : apply_change (hits_fold ns g)
          (.ChangeResources .Allies ((ns.length : Nat) : Int)) =
          some ((hits_fold ns g).set_war .Allies
            { (hits_fold ns g).war .Allies with
              resources := ((hits_fold ns g).war .Allies).resources + ns.length }) := by
        show (if (0 : Int) ≤ ((ns.length : Nat) : Int) then
            increase_pr (hits_fold ns g) .Allies (((ns.length : Nat) : Int)).toNat
          else if ((ns.length : Nat) : Int) = -128 then none
          else decrease_pr (hits_fold ns g) .Allies
            ((-((ns.length : Nat) : Int)).toNat)) = _
        rw [if_pos (by omega)]
        rw [show ((ns.length : Int)).toNat = ns.length from Int.toNat_natCast _]
        simp only [increase_pr]
        rw [if_pos (by omega), if_neg (by omega)]
      rw [hstep1]
      show (match apply_change ((hits_fold ns g).set_war .Allies
          { (hits_fold ns g).war .Allies with
            resources := ((hits_fold ns g).war .Allies).resources + ns.length })
          (.ChangeResources .Allies (-(L : Int))) with
        | none => none
        | some g2 => apply_change_list g2 []) = _
      have hneg : ¬ (0 : Int) ≤ -(L : Int) := by omega
      have h128 : ¬ (-(L : Int) = -128) := by omega
      simp only [apply_change, hneg, if_false, if_neg h128]
      rw [show ((-(-(L : Int))).toNat) = L by simp]
      simp only [decrease_pr]
      rw [war_set_war, if_pos rfl]
      dsimp only
      rw [if_pos (by omega)]
      dsimp only
      rw [set_war_set_war]
      show some ((hits_fold ns g).set_war .Allies
        { resources := ((hits_fold ns g).war .Allies).resources + ns.length - L,
          vp := ((hits_fold ns g).war .Allies).vp,
          technologies := ((hits_fold ns g).war .Allies).technologies }) = _
      have hzero : ((hits_fold ns g).war .Allies).resources + ns.length - L = 0 := by
        omega
      rw [hzero]
    rw [happ2]

/-- Witness for C3: with Allies resources 1 and table loss 4 the Allies
answer three `SelectNationForHit` prompts with France, Russia, Russia (the
spec's U-boot overflow scenario) and end at exactly 0 resources; with table
loss 1 ≤ resources no prompt is issued and resources drop by exactly 1. -/
theorem claim_C3_witness :
    (uboot_after_losses 4
        ([.France, .Russia, .Russia].map .ApplyHit)
        { sample_state with
          allies := ⟨1, 0, ZERO_TECHNOLOGIES⟩
          empires := ⟨4, 0, ZERO_TECHNOLOGIES⟩ } =
      some ((hits_fold [.France, .Russia, .Russia]
            { sample_state with
              allies := ⟨1, 0, ZERO_TECHNOLOGIES⟩
              empires := ⟨4, 0, ZERO_TECHNOLOGIES⟩ }).set_war .Allies
          { (hits_fold [.France, .Russia, .Russia]
              { sample_state with
                allies := ⟨1, 0, ZERO_TECHNOLOGIES⟩
                empires := ⟨4, 0, ZERO_TECHNOLOGIES⟩ }).war .Allies with
            resources := 0 },
        .UBootResult 4 ::
          List.replicate (4 - resources_for
              { sample_state with
                allies := ⟨1, 0, ZERO_TECHNOLOGIES⟩
                empires := ⟨4, 0, ZERO_TECHNOLOGIES⟩ } .Allies)
            .SelectNationForHit)) ∧
    (uboot_after_losses 1 []
        { sample_state with
          allies := ⟨1, 0, ZERO_TECHNOLOGIES⟩
          empires := ⟨4, 0, ZERO_TECHNOLOGIES⟩ } =
      some (({ sample_state with
            allies := ⟨1, 0, ZERO_TECHNOLOGIES⟩
            empires := ⟨4, 0, ZERO_TECHNOLOGIES⟩ } : GameState).set_war .Allies
          { ({ sample_state with
              allies := ⟨1, 0, ZERO_TECHNOLOGIES⟩
              empires := ⟨4, 0, ZERO_TECHNOLOGIES⟩ } : GameState).war .Allies with
            resources := resources_for
              { sample_state with
                allies := ⟨1, 0, ZERO_TECHNOLOGIES⟩
                empires := ⟨4, 0, ZERO_TECHNOLOGIES⟩ } .Allies - 1 },
        [.UBootResult 1])) :=
  ⟨(claim_C3 4
      { sample_state with
        allies := ⟨1, 0, ZERO_TECHNOLOGIES⟩
        empires := ⟨4, 0, ZERO_TECHNOLOGIES⟩ }
      [.France, .Russia, .Russia]
      ([.France, .Russia, .Russia].map .ApplyHit) (by decide) (by decide)).2
      (by decide) (by decide),
   (claim_C3 1
      { sample_state with
        allies := ⟨1, 0, ZERO_TECHNOLOGIES⟩
        empires := ⟨4, 0, ZERO_TECHNOLOGIES⟩ }
      [] [] (by decide) (by decide)).1 (by decide)⟩

end DerDesDers
